import Mathlib

/-!
Verification model of the risk-gated execution and state-reconciliation
engine of the nexwave trading operator.

Python `float` arithmetic is embedded as exact rational arithmetic (`ℚ`);
amounts, prices and thresholds are rationals.  Fallible Python code
(exceptions) is embedded with `Except`:

* A Python instance attribute that may or may not have been assigned is an
  `Option` field; reading it goes through `getattrOr`, which raises
  `PyFault.attributeError` when the attribute was never assigned
  (Python `AttributeError`).
* Database / network effects are inputs: each function takes the outcome of
  the I/O it performs (an `Except` value) as an explicit argument.
-/

set_option maxHeartbeats 1000000
set_option linter.unusedVariables false

inductive PyFault where
  | attributeError (name : String)
  | dbError
  | zeroDivision
  | timeout
  | httpError (code : Nat)
  deriving DecidableEq

/-- Python attribute read: `some v` models an assigned attribute, `none` an
attribute that no code path ever assigns; reading the latter raises
`AttributeError`. -/
def getattrOr (o : Option α) (name : String) : Except PyFault α :=
  match o with
  | some v => Except.ok v
  | none => Except.error (PyFault.attributeError name)

/-- Association-list lookup, modelling Python `dict.get`. -/
def alookup (l : List (String × α)) (k : String) : Option α :=
  (l.find? (fun p => p.1 == k)).map Prod.snd

/-- Association-list write, modelling Python `dict[k] = v`. -/
def aset (l : List (String × α)) (k : String) (v : α) : List (String × α) :=
  (k, v) :: l.filter (fun p => p.1 != k)

/-- Truthiness of a Python value that is `None` or a string
(`None` and `""` are falsy). -/
def pyTruthyStr (o : Option String) : Bool :=
  match o with
  | none => false
  | some s => !s.data.isEmpty

/-- Python `str.upper()` (the symbols handled are ASCII). -/
def pyUpper (s : String) : String := ⟨s.data.map Char.toUpper⟩

/-- Python `str.lower()`. -/
def pyLower (s : String) : String := ⟨s.data.map Char.toLower⟩

/-- Python `str.strip()`: drop leading and trailing whitespace. -/
def pyStrip (s : String) : String :=
  ⟨((s.data.dropWhile Char.isWhitespace).reverse.dropWhile Char.isWhitespace).reverse⟩

def pySplitCommaAux : List Char → List Char → List String
  | [], acc => [⟨acc.reverse⟩]
  | c :: rest, acc =>
    if c = ',' then ⟨acc.reverse⟩ :: pySplitCommaAux rest []
    else pySplitCommaAux rest (c :: acc)

/-- Python `str.split(",")`. -/
def pySplitComma (s : String) : List String := pySplitCommaAux s.data []

/-!
`nexwave/common/config.py` — the fields of `Settings` read by the risk
manager, with their defaults.
-/

structure SettingsModel where
  max_position_size_usd : ℚ := 1000000
  max_leverage : ℚ := 5
  daily_loss_limit_pct : ℚ := 5
  min_order_size_usd : ℚ := 50
  max_order_size_usd : ℚ := 100000
  maintenance_margin_ratio : ℚ := 1/2
  min_profit_target_usd : ℚ := 2
  trade_cooldown_seconds : ℚ := 300
  max_trades_per_symbol_per_day : Nat := 10
  symbol_blacklist : String := "XPL,ASTER,FARTCOIN,PENGU,CRV,SUI"

/-!
`nexwave/services/trading_engine/risk_manager.py`
-/

/-- `RiskCheckResult` (the `details` payload, used only for audit logging, is
omitted; reason strings keep the static text of the source f-strings without
the interpolated numbers). -/
structure RiskCheckResult where
  approved : Bool
  reason : String
  deriving DecidableEq

/-- A row of the `positions` table as returned by
`RiskManager.get_current_positions`. -/
structure PosRow where
  symbol : String
  side : String
  amount : ℚ
  entry_price : ℚ
  current_price : Option ℚ
  unrealized_pnl : Option ℚ
  deriving DecidableEq

/-- The `RiskManager` instance state.  `__init__` assigns exactly
`last_trade_time`, `daily_trade_count` and `last_reset_date`; the limit
attributes read by `check_symbol_blacklist`, `check_order_size`,
`check_position_limit` and `check_daily_loss_limit` are never assigned
anywhere in the repository, so they are `none` in every reachable state
(the current limits live in the `_limits()` snapshot instead).
Trade times are UTC timestamps in seconds; `last_reset_date` is the stored
datetime's date. -/
structure RiskManager where
  last_trade_time : List (String × ℚ)
  daily_trade_count : List (String × Nat)
  last_reset_date : Option ℤ
  symbol_blacklist : Option (List String)
  min_order_size_usd : Option ℚ
  max_order_size_usd : Option ℚ
  max_position_size_usd : Option ℚ
  daily_loss_limit_pct : Option ℚ

/-- `RiskManager.__init__`. -/
def RiskManager.init : RiskManager :=
  ⟨[], [], none, none, none, none, none, none⟩

/-- The `_limits()` snapshot. -/
structure Limits where
  max_position_size_usd : ℚ
  max_leverage : ℚ
  daily_loss_limit_pct : ℚ
  min_order_size_usd : ℚ
  max_order_size_usd : ℚ
  maintenance_margin_ratio : ℚ
  min_profit_target_usd : ℚ
  trade_cooldown_seconds : ℚ
  max_trades_per_symbol_per_day : Nat
  symbol_blacklist : List String

/-- `{s.strip().upper() for s in settings.symbol_blacklist.split(",") if s.strip()}` -/
def parseBlacklist (s : String) : List String :=
  ((pySplitComma s).filter (fun t => !(pyStrip t).data.isEmpty)).map
    (fun t => pyUpper (pyStrip t))

/-- `RiskManager._limits`. -/
def limitsOf (st : SettingsModel) : Limits :=
  { max_position_size_usd := st.max_position_size_usd
    max_leverage := st.max_leverage
    daily_loss_limit_pct := st.daily_loss_limit_pct
    min_order_size_usd := st.min_order_size_usd
    max_order_size_usd := st.max_order_size_usd
    maintenance_margin_ratio := st.maintenance_margin_ratio
    min_profit_target_usd := st.min_profit_target_usd
    trade_cooldown_seconds := st.trade_cooldown_seconds
    max_trades_per_symbol_per_day := st.max_trades_per_symbol_per_day
    symbol_blacklist := parseBlacklist st.symbol_blacklist }

/-- Outcomes of the database reads a risk evaluation performs.  `positionsRead`
is keyed by the optional symbol filter of `get_current_positions`; the
`Option ℚ` components are the `scalar()` results of the SQL `sum`
aggregates (NULL is `none`). -/
structure RiskEnv where
  st : SettingsModel
  nowSec : ℚ
  today : ℤ
  initialCash : Except PyFault ℚ
  portfolioRead : Except PyFault (Option ℚ × Option ℚ)
  positionsRead : Option String → Except PyFault (List PosRow)
  dailyRead : Except PyFault (Option ℚ × Option ℚ)

/-- `RiskManager.get_portfolio_value`: the whole body is inside
`try: ... except Exception: return 100000.0`.  `initialCash` is the parse of
the `PORTFOLIO_VALUE` environment variable, `dbRead` the pair of PnL sums;
`result.scalar() or 0.0` is `Option.getD 0`. -/
def get_portfolio_value (initialCash : Except PyFault ℚ)
    (dbRead : Except PyFault (Option ℚ × Option ℚ)) : ℚ :=
  match initialCash, dbRead with
  | .ok cash, .ok ur => max 0 (cash + ur.1.getD 0 + ur.2.getD 0)
  | .error _, _ => 100000
  | _, .error _ => 100000

/-- `RiskManager.get_current_positions`: on any exception returns `[]`. -/
def get_current_positions (dbRead : Except PyFault (List PosRow)) : List PosRow :=
  match dbRead with
  | .ok l => l
  | .error _ => []

/-- `RiskManager.calculate_daily_pnl`: on any exception returns `0.0`.
`dbRead` carries (realized-PnL-today sum, unrealized-PnL sum). -/
def calculate_daily_pnl (dbRead : Except PyFault (Option ℚ × Option ℚ)) : ℚ :=
  match dbRead with
  | .ok rp => rp.1.getD 0 + rp.2.getD 0
  | .error _ => 0

/-- `RiskManager.reset_daily_counts_if_needed`. -/
def reset_daily_counts_if_needed (self : RiskManager) (today : ℤ) : RiskManager :=
  match self.last_reset_date with
  | none => { self with daily_trade_count := [], last_reset_date := some today }
  | some d =>
    if d = today then self
    else { self with daily_trade_count := [], last_reset_date := some today }

/-- `RiskManager.check_symbol_blacklist`: reads the instance attribute
`self.symbol_blacklist` (never assigned), not the `_limits()` snapshot. -/
def check_symbol_blacklist (self : RiskManager) (symbol : String) :
    Except PyFault RiskCheckResult :=
  match getattrOr self.symbol_blacklist "symbol_blacklist" with
  | .error e => .error e
  | .ok bl =>
    if pyUpper symbol ∈ bl then
      .ok ⟨false, "Symbol is blacklisted (historical losses, low win rate)"⟩
    else
      .ok ⟨true, "Symbol not blacklisted"⟩

/-- `RiskManager.check_trade_frequency` (mutates `self` through the daily
reset). -/
def check_trade_frequency (self : RiskManager) (st : SettingsModel)
    (nowSec : ℚ) (today : ℤ) (symbol : String) :
    RiskManager × RiskCheckResult :=
  let self := reset_daily_counts_if_needed self today
  let limits := limitsOf st
  let symbolUpper := pyUpper symbol
  let cooldownHit :=
    match alookup self.last_trade_time symbolUpper with
    | some t => decide (nowSec - t < limits.trade_cooldown_seconds)
    | none => false
  if cooldownHit then
    (self, ⟨false, "Trade cooldown active"⟩)
  else
    let daily := (alookup self.daily_trade_count symbolUpper).getD 0
    if limits.max_trades_per_symbol_per_day ≤ daily then
      (self, ⟨false, "Daily trade limit reached"⟩)
    else
      (self, ⟨true, "Trade frequency OK"⟩)

/-- `RiskManager.record_trade`. -/
def record_trade (self : RiskManager) (nowSec : ℚ) (today : ℤ)
    (symbol : String) : RiskManager :=
  let self := reset_daily_counts_if_needed self today
  let symbolUpper := pyUpper symbol
  { self with
    last_trade_time := aset self.last_trade_time symbolUpper nowSec
    daily_trade_count :=
      aset self.daily_trade_count symbolUpper
        ((alookup self.daily_trade_count symbolUpper).getD 0 + 1) }

/-- `RiskManager.check_order_size`: reads the never-assigned instance
attributes `self.min_order_size_usd` / `self.max_order_size_usd`. -/
def check_order_size (self : RiskManager) (amount price : ℚ) :
    Except PyFault RiskCheckResult :=
  let sz := amount * price
  match getattrOr self.min_order_size_usd "min_order_size_usd" with
  | .error e => .error e
  | .ok minv =>
    if sz < minv then
      .ok ⟨false, "Order size too small"⟩
    else
      match getattrOr self.max_order_size_usd "max_order_size_usd" with
      | .error e => .error e
      | .ok maxv =>
        if sz > maxv then
          .ok ⟨false, "Order size too large"⟩
        else
          .ok ⟨true, "Order size OK"⟩

/-- `RiskManager.check_profit_viability` (fee 0.04% taker, round trip;
`required_move_pct` divides by the order size, a Python
`ZeroDivisionError` when the size is zero). -/
def check_profit_viability (st : SettingsModel) (amount price : ℚ) :
    Except PyFault RiskCheckResult :=
  let limits := limitsOf st
  let sz := amount * price
  let fees := sz * (4/10000) * 2
  let needed := limits.min_profit_target_usd + fees
  if sz = 0 then .error .zeroDivision
  else
    let pct := needed / sz * 100
    if pct > 5 then .ok ⟨false, "Trade requires unrealistic price move"⟩
    else .ok ⟨true, "Profit target viable"⟩

/-- `pos.get("current_price") or pos.get("entry_price", 0)`
(Python `or`: `None` and `0.0` both fall through to the entry price). -/
def posMarkPrice (p : PosRow) : ℚ :=
  match p.current_price with
  | some c => if c = 0 then p.entry_price else c
  | none => p.entry_price

/-- `RiskManager.check_position_limit`: reads the never-assigned
`self.max_position_size_usd`. -/
def check_position_limit (self : RiskManager) (env : RiskEnv)
    (symbol : String) (newSz : ℚ) : Except PyFault RiskCheckResult :=
  let ps := get_current_positions (env.positionsRead (some symbol))
  let total :=
    (ps.filter (fun p => pyUpper p.symbol == pyUpper symbol)).foldl
      (fun acc p => acc + p.amount * posMarkPrice p) 0
  let total := total + newSz
  match getattrOr self.max_position_size_usd "max_position_size_usd" with
  | .error e => .error e
  | .ok maxp =>
    if total > maxp then
      .ok ⟨false, "Position limit exceeded"⟩
    else
      .ok ⟨true, "Position limit OK"⟩

/-- `RiskManager.check_leverage`: uses the `_limits()` snapshot (no instance
attribute) and the fallback-protected helpers, so it cannot fault. -/
def check_leverage (env : RiskEnv) (newSz : ℚ) : RiskCheckResult :=
  let limits := limitsOf env.st
  let pv := get_portfolio_value env.initialCash env.portfolioRead
  let ps := get_current_positions (env.positionsRead none)
  let exposure := ps.foldl (fun acc p => acc + posMarkPrice p * p.amount) 0 + newSz
  let leverage := if pv > 0 then exposure / pv else 0
  if leverage > limits.max_leverage then ⟨false, "Leverage too high"⟩
  else ⟨true, "Leverage OK"⟩

/-- `RiskManager.check_daily_loss_limit`: reads the never-assigned
`self.daily_loss_limit_pct` in its final comparison. -/
def check_daily_loss_limit (self : RiskManager) (env : RiskEnv) :
    Except PyFault RiskCheckResult :=
  let pnl := calculate_daily_pnl env.dailyRead
  let pv := get_portfolio_value env.initialCash env.portfolioRead
  if pv ≤ 0 then
    .ok ⟨false, "Invalid portfolio value"⟩
  else
    let pct := pnl / pv * 100
    match getattrOr self.daily_loss_limit_pct "daily_loss_limit_pct" with
    | .error e => .error e
    | .ok lim =>
      if pct ≤ -lim then
        .ok ⟨false, "Daily loss limit exceeded"⟩
      else
        .ok ⟨true, "Daily loss limit OK"⟩

/-- `RiskManager.check_order`: the ordered, short-circuiting pipeline
(blacklist → frequency → daily loss → size → profit viability → position
limit → leverage).  Returns the mutated manager together with the result;
an uncaught exception in a step propagates with the mutations made so far. -/
def check_order (self : RiskManager) (env : RiskEnv)
    (strategy_id symbol side : String) (amount price : ℚ)
    (order_type : String) : RiskManager × Except PyFault RiskCheckResult :=
  match check_symbol_blacklist self symbol with
  | .error e => (self, .error e)
  | .ok r0 =>
  if !r0.approved then (self, .ok r0) else
  let freq := check_trade_frequency self env.st env.nowSec env.today symbol
  let self1 := freq.1
  if !freq.2.approved then (self1, .ok freq.2) else
  match check_daily_loss_limit self1 env with
  | .error e => (self1, .error e)
  | .ok r2 =>
  if !r2.approved then (self1, .ok r2) else
  match check_order_size self1 amount price with
  | .error e => (self1, .error e)
  | .ok r3 =>
  if !r3.approved then (self1, .ok r3) else
  match check_profit_viability env.st amount price with
  | .error e => (self1, .error e)
  | .ok r4 =>
  if !r4.approved then (self1, .ok r4) else
  let orderSz := amount * price
  match check_position_limit self1 env symbol orderSz with
  | .error e => (self1, .error e)
  | .ok r5 =>
  if !r5.approved then (self1, .ok r5) else
  let r6 := check_leverage env orderSz
  if !r6.approved then (self1, .ok r6) else
  (self1, .ok ⟨true, "All risk checks passed"⟩)

/-- A healthy evaluation environment (all database reads succeed, empty
position table, default settings). -/
def okEnv : RiskEnv :=
  { st := {}
    nowSec := 0
    today := 0
    initialCash := .ok 100000
    portfolioRead := .ok (none, none)
    positionsRead := fun _ => .ok []
    dailyRead := .ok (none, none) }

/-- The same environment with every database read failing. -/
def faultyEnv : RiskEnv :=
  { okEnv with
    portfolioRead := .error .dbError
    positionsRead := fun _ => .error .dbError
    dailyRead := .error .dbError }

/-!
`nexwave/services/order_management/pacifica_client.py` — precision logic.

`Decimal` arithmetic on the decimal string of a float is embedded as exact
rational arithmetic.  `halfUpZ` is `ROUND_HALF_UP` (ties away from zero),
`halfEvenZ` is banker's rounding (Python built-in `round` and the default
`Decimal` context used by the final `quantize`).
-/

def halfUpZ (q : ℚ) : ℤ :=
  if 0 ≤ q then ⌊q + 1/2⌋ else -⌊-q + 1/2⌋

def halfEvenZ (q : ℚ) : ℤ :=
  let n := ⌊q⌋
  if q - n < 1/2 then n
  else if (1 : ℚ)/2 < q - n then n + 1
  else if n % 2 = 0 then n else n + 1

/-- Python `round(x, d)` for `d ≥ 0` digits (banker's rounding). -/
def pyRound (x : ℚ) (d : Nat) : ℚ :=
  (halfEvenZ (x * 10 ^ d) : ℚ) / 10 ^ d

/-- `max(0, -int(math.floor(math.log10(step))))` — decimal places implied by
a tick/lot step (`Int.log` is the exact floor of `log10` on `ℚ`). -/
def decimalPlacesOf (step : ℚ) : Nat :=
  (max 0 (-(Int.log 10 step))).toNat

/-- `PacificaClient.get_tick_size`: the hardcoded map keyed by the
upper-cased symbol, default `0.0001`. -/
def tickSizeMap : List (String × ℚ) :=
  [("BTC", 1/100), ("ETH", 1/100), ("SOL", 1/100), ("BNB", 1/100),
   ("ZEC", 1/100), ("LTC", 1/100), ("AAVE", 1/100), ("PAXG", 1/100),
   ("TAO", 1/100),
   ("HYPE", 1/1000), ("LINK", 1/1000), ("UNI", 1/1000), ("AVAX", 1/1000),
   ("SUI", 1/1000),
   ("DOGE", 1/100000), ("XRP", 1/100000), ("ENA", 1/10000),
   ("VIRTUAL", 1/10000), ("FARTCOIN", 1/10000), ("ASTER", 1/10000),
   ("XPL", 1/10000), ("MON", 1/100000), ("PENGU", 1/100000),
   ("WLFI", 1/100000), ("LDO", 1/10000), ("CRV", 1/10000),
   ("2Z", 1/10000), ("PUMP", 1/100000),
   ("kPEPE", 1/1000000), ("KPEPE", 1/1000000), ("kBONK", 1/10000),
   ("KBONK", 1/10000)]

def get_tick_size (symbol : String) : ℚ :=
  (alookup tickSizeMap (pyUpper symbol)).getD (1/10000)

/-- `PacificaClient.get_lot_size`: the hardcoded map keyed by the upper-cased
symbol, default `1.0`. -/
def lotSizeMap : List (String × ℚ) :=
  [("BTC", 1/10000), ("ETH", 1/1000), ("SOL", 1/100),
   ("HYPE", 1/10), ("ZEC", 1/100), ("BNB", 1/100), ("XRP", 1),
   ("PUMP", 1), ("AAVE", 1/100),
   ("ENA", 1/10), ("ASTER", 1/10), ("KBONK", 1/10), ("KPEPE", 1/10),
   ("LTC", 1), ("PAXG", 1/1000), ("VIRTUAL", 1/10), ("SUI", 1/10),
   ("FARTCOIN", 1/10), ("TAO", 1/100), ("DOGE", 1), ("XPL", 1),
   ("AVAX", 1/10), ("LINK", 1/10), ("UNI", 1), ("WLFI", 1),
   ("PENGU", 1), ("2Z", 1/10), ("MON", 1), ("LDO", 1/10), ("CRV", 1/10)]

def get_lot_size (symbol : String) : ℚ :=
  (alookup lotSizeMap (pyUpper symbol)).getD 1

/-- `PacificaClient.round_to_tick_size`: quantize `price/tick` with
`ROUND_HALF_UP`, multiply back, then re-quantize to the tick's decimal
places (default half-even rounding). -/
def round_to_tick_size (price tick : ℚ) : ℚ :=
  if tick ≤ 0 then price
  else pyRound ((halfUpZ (price / tick) : ℚ) * tick) (decimalPlacesOf tick)

/-- `PacificaClient.round_to_lot_size`: floor `amount` to the lot grid, then
Python-`round` the product to the lot's decimal places. -/
def round_to_lot_size (amount lot : ℚ) : ℚ :=
  if lot ≤ 0 then amount
  else pyRound ((⌊amount / lot⌋ : ℚ) * lot) (decimalPlacesOf lot)

/-- `PacificaClient.validate_tpsl`.  Returns
`(validated_stop_loss, validated_take_profit)`. -/
def validate_tpsl (symbol side : String) (entry : ℚ)
    (stop_loss take_profit : Option ℚ) : Option ℚ × Option ℚ :=
  if stop_loss = none ∧ take_profit = none then (none, none)
  else
    let tick := get_tick_size symbol
    let isLong := pyLower side = "bid"
    let vsl : Option ℚ :=
      match stop_loss with
      | none => none
      | some s =>
        if 0 < s then
          if isLong then
            if s ≥ entry then none
            else
              let v := round_to_tick_size s tick
              if v ≥ entry then some (round_to_tick_size (entry - tick) tick)
              else some v
          else
            if s ≤ entry then none
            else
              let v := round_to_tick_size s tick
              if v ≤ entry then some (round_to_tick_size (entry + tick) tick)
              else some v
        else none
    let vtp : Option ℚ :=
      match take_profit with
      | none => none
      | some t =>
        if 0 < t then
          if isLong then
            if t ≤ entry then none
            else
              let v := round_to_tick_size t tick
              if v ≤ entry then some (round_to_tick_size (entry + tick) tick)
              else some v
          else
            if t ≥ entry then none
            else
              let v := round_to_tick_size t tick
              if v ≥ entry then some (round_to_tick_size (entry - tick) tick)
              else some v
        else none
    (vsl, vtp)

/-!
`nexwave/services/trading_engine/engine.py` — signal handling and order
creation.  `base_strategy.py` is not part of the provided sources; its
`SignalType` enumeration is modelled from the spec.
-/

/-- Modelled from the spec: `TradingSignal.signal_type` ranges over
`{buy, sell, close_long, close_short}` (the `SignalType` enum of the missing
`strategies/base_strategy.py`); `value` is the enum's string value. -/
inductive SignalType where
  | buy
  | sell
  | close_long
  | close_short
  deriving DecidableEq

def SignalType.value : SignalType → String
  | .buy => "buy"
  | .sell => "sell"
  | .close_long => "close_long"
  | .close_short => "close_short"

/-- Modelled from the spec: the consumed fields of `TradingSignal`. -/
structure TradingSignal where
  signal_type : SignalType
  symbol : String
  price : ℚ
  amount : ℚ
  stop_loss : Option ℚ := none
  take_profit : Option ℚ := none

/-- The engine's `side_map` plus `side_map.get(..., "bid")`. -/
def sideMap : List (String × String) :=
  [("buy", "bid"), ("sell", "ask"), ("close_long", "ask"), ("close_short", "bid")]

def orderSideOf (t : SignalType) : String :=
  (alookup sideMap t.value).getD "bid"

/-- The engine's amount path: `rounded_amount = round(signal.amount, 2)`
followed by the adapter's `round_to_lot_size(amount, get_lot_size(symbol))`
inside `create_market_order`. -/
def engine_submitted_amount (amount : ℚ) (symbol : String) : ℚ :=
  round_to_lot_size (pyRound amount 2) (get_lot_size symbol)

/-- The `data` field of a Pacifica order response:
absent (`response.get('data', {})` yields `{}`), a dict with an optional
`order_id`, or a non-dict value. -/
inductive RespData where
  | absent
  | dict (order_id : Option String)
  | nondict
  deriving DecidableEq

/-- An HTTP-200 body returned by `PacificaClient.create_market_order`
(on timeout or non-200 status the client raises instead). -/
structure ExchBody where
  success : Bool
  data : RespData
  order_id : Option String
  deriving DecidableEq

/-- The engine's order-id extraction:
`data.get('order_id') if isinstance(data, dict) else response.get('order_id')`,
guarded by `response.get('success')`. -/
def pacificaOrderId (b : ExchBody) : Option String :=
  if b.success then
    match b.data with
    | .dict oid => oid
    | .absent => none
    | .nondict => b.order_id
  else none

/-- The Order row written by `TradingEngine.create_order`. -/
structure OrderRow where
  order_id : String
  client_order_id : String
  symbol : String
  side : String
  amount : ℚ
  price : ℚ
  status : String
  deriving DecidableEq

structure CreateOrderResult where
  returned : Option String
  savedOrder : Option OrderRow
  deriving DecidableEq

/-- `TradingEngine.create_order`.  Effects appear as arguments:
`riskResult` is what `RiskManager.check_order` returned (or raised),
`exch` the outcome of `PacificaClient.create_market_order` (`Except.error`
when it raised: timeout, non-200 status, network error), `dbOk` whether the
database save succeeded.  The outer `try` turns any raised risk-check fault
into `return None`; the position write and TP/SL attachment (side effects no
claim depends on) are omitted. -/
def create_order (riskResult : Except PyFault RiskCheckResult)
    (paperTrading clientReady : Bool) (sig : TradingSignal)
    (clientOrderId : String) (exch : Except PyFault ExchBody)
    (dbOk : Bool) : CreateOrderResult :=
  match riskResult with
  | .error _ => ⟨none, none⟩
  | .ok rc =>
    if !rc.approved then ⟨none, none⟩
    else if paperTrading then ⟨some clientOrderId, none⟩
    else if !clientReady then ⟨none, none⟩
    else
      match exch with
      | .error _ => ⟨none, none⟩
      | .ok body =>
        let pacId := pacificaOrderId body
        let tid := pyTruthyStr pacId
        let row : OrderRow :=
          { order_id := if tid then pacId.getD "" else "failed-" ++ clientOrderId
            client_order_id := clientOrderId
            symbol := sig.symbol
            side := orderSideOf sig.signal_type
            amount := pyRound sig.amount 2
            price := sig.price
            status := if tid then "submitted" else "failed" }
        ⟨some clientOrderId, if dbOk then some row else none⟩

/-- `TradingEngine.process_signals`: after `order_id = await
self.create_order(signal)`, `record_trade` runs iff `order_id` is truthy. -/
def record_trade_invoked (riskResult : Except PyFault RiskCheckResult)
    (paperTrading clientReady : Bool) (sig : TradingSignal)
    (clientOrderId : String) (exch : Except PyFault ExchBody)
    (dbOk : Bool) : Bool :=
  pyTruthyStr (create_order riskResult paperTrading clientReady sig
    clientOrderId exch dbOk).returned

/-!
`TradingEngine.sync_positions_from_pacifica` — reconciliation against the
exchange's position list.
-/

/-- A position reported by the exchange (`symbol` / `side` / `amount` /
`entry_price` fields of the Pacifica payload). -/
structure PacPos where
  symbol : String
  side : String
  amount : ℚ
  entry_price : ℚ
  deriving DecidableEq

/-- A local `Position` row (the fields reconciliation reads or writes). -/
structure LocalPos where
  symbol : String
  side : String
  amount : ℚ
  entry_price : ℚ
  current_price : ℚ
  deriving DecidableEq

/-- The row created for a position only the exchange reports
(`current_price` is initialised to the entry price). -/
def newFromPac (p : PacPos) : LocalPos :=
  ⟨p.symbol, p.side, p.amount, p.entry_price, p.entry_price⟩

/-- The overwrite applied when both sides have the symbol: exchange wins on
`side`, `amount`, `entry_price`; other columns keep their local values. -/
def overwriteFromPac (q : LocalPos) (p : PacPos) : LocalPos :=
  { q with side := p.side, amount := p.amount, entry_price := p.entry_price }

def hasSymbol (ps : List LocalPos) (s : String) : Bool :=
  ps.any (fun q => q.symbol == s)

/-- Overwrite the (unique, per the `(strategy_id, symbol)` invariant) row
with the exchange symbol — the row `scalar_one_or_none` returns. -/
def updateFirst (ps : List LocalPos) (p : PacPos) : List LocalPos :=
  match ps with
  | [] => []
  | q :: rest =>
    if q.symbol = p.symbol then overwriteFromPac q p :: rest
    else q :: updateFirst rest p

structure SyncState where
  positions : List LocalPos
  updated : Nat
  created : Nat
  deriving DecidableEq

/-- One iteration of the `for pac_pos in pacifica_positions` loop
(`if amount == 0: continue`, then update-or-create). -/
def applyPac (st : SyncState) (p : PacPos) : SyncState :=
  if p.amount = 0 then st
  else if hasSymbol st.positions p.symbol then
    ⟨updateFirst st.positions p, st.updated + 1, st.created⟩
  else
    ⟨st.positions ++ [newFromPac p], st.updated, st.created + 1⟩

structure SyncResult where
  final : List LocalPos
  created : Nat
  updated : Nat
  deleted : Nat
  deriving DecidableEq

/-- `pacifica_symbols`: the symbols the exchange reports with positive
amount. -/
def pacSymbolsOf (exch : List PacPos) : List String :=
  (exch.filter (fun p => decide (0 < p.amount))).map PacPos.symbol

/-- The local rows that survive the deletion pass (symbol still reported). -/
def keptOf (localPs : List LocalPos) (exch : List PacPos) : List LocalPos :=
  localPs.filter (fun q => (pacSymbolsOf exch).contains q.symbol)

/-- `TradingEngine.sync_positions_from_pacifica`: delete local rows whose
symbol the exchange (filtered to `amount > 0`) does not report, then
update-or-create from each exchange position. -/
def syncPositions (localPs : List LocalPos) (exch : List PacPos) : SyncResult :=
  let kept := keptOf localPs exch
  let deleted :=
    (localPs.filter (fun q => !(pacSymbolsOf exch).contains q.symbol)).length
  let st := exch.foldl applyPac ⟨kept, 0, 0⟩
  ⟨st.positions, st.created, st.updated, deleted⟩

/-- Lookup of the local row for a symbol. -/
def findPos (ps : List LocalPos) (s : String) : Option LocalPos :=
  ps.find? (fun q => q.symbol == s)

/-!
`nexwave/services/portfolio/exposure_manager.py`
-/

/-- A stored `ExposureManager` position: only `side` and `value`
(`size * entry_price`) matter to `calculate_exposure`. -/
structure ExpoPosition where
  side : String
  value : ℚ
  deriving DecidableEq

/-- `ExposureManager.calculate_exposure`: the accumulation loop, returning
`(long_exposure, short_exposure)`. -/
def calculate_exposure (ps : List ExpoPosition) : ℚ × ℚ :=
  ps.foldl
    (fun acc p =>
      if p.side = "LONG" then (acc.1 + p.value, acc.2)
      else (acc.1, acc.2 + p.value))
    (0, 0)

/-- The side string the engine stores when recording a position in the
exposure manager: `signal.signal_type.value`. -/
def engineRecordedSide (t : SignalType) : String := t.value

/-!
`nexwave/services/portfolio/hedge_trigger.py`
-/

inductive HedgeAction where
  | ACTIVATE_MR_SHORTS
  | ACTIVATE_MR_LONGS
  | NONE
  deriving DecidableEq

/-- `HedgeTrigger.__init__` defaults. -/
structure HedgeTrigger where
  profit_threshold : ℚ := 1/10
  high_exposure_threshold : ℚ := 7/10
  short_threshold : ℚ := 3/10

/-- The exposure snapshot consumed by `HedgeTrigger.evaluate`
(`ExposureManager.get_exposure_state`). -/
structure ExposureState where
  net_exposure : ℚ
  long_exposure : ℚ
  short_exposure : ℚ
  net_long : ℚ
  long_pnl_pct : ℚ

/-- `HedgeTrigger.evaluate`. -/
def HedgeTrigger.evaluate (ht : HedgeTrigger) (s : ExposureState) : HedgeAction :=
  if ht.profit_threshold < s.long_pnl_pct ∧ ht.high_exposure_threshold < s.net_long then
    .ACTIVATE_MR_SHORTS
  else if ht.short_threshold < s.short_exposure then
    .ACTIVATE_MR_LONGS
  else
    .NONE

/-!
Lemmas and claim theorems.
-/

theorem calculate_exposure_foldl (ps : List ExpoPosition) (a b : ℚ) :
    List.foldl
      (fun acc p =>
        if p.side = "LONG" then (acc.1 + p.value, acc.2) else (acc.1, acc.2 + p.value))
      (a, b) ps
      = (a + ((ps.filter (fun p => decide (p.side = "LONG"))).map ExpoPosition.value).sum,
         b + ((ps.filter (fun p => !decide (p.side = "LONG"))).map ExpoPosition.value).sum) := by
  induction ps generalizing a b with
  | nil => simp
  | cons p rest ih =>
    rw [List.foldl_cons]
    by_cases h : p.side = "LONG"
    · rw [if_pos h, ih]
      simp [List.filter_cons, h, add_assoc]
    · rw [if_neg h, ih]
      simp [List.filter_cons, h, add_assoc]

theorem calculate_exposure_spec (ps : List ExpoPosition) :
    calculate_exposure ps
      = (((ps.filter (fun p => decide (p.side = "LONG"))).map ExpoPosition.value).sum,
         ((ps.filter (fun p => !decide (p.side = "LONG"))).map ExpoPosition.value).sum) := by
  unfold calculate_exposure
  rw [calculate_exposure_foldl]
  simp

/-- C1: the claim asserts that for a blacklisted symbol `check_order` returns
a not-approved decision without faulting.  In the code the first pipeline
step, `check_symbol_blacklist`, reads `self.symbol_blacklist`, an instance
attribute `__init__` (and every other code path) never assigns, so
`check_order` raises `AttributeError` for every symbol — here shown at
`XPL`, which is in the configured (case-normalized) blacklist. -/
theorem c1_blacklisted_symbol_faults :
    "XPL" ∈ (limitsOf {}).symbol_blacklist ∧
    (check_order RiskManager.init okEnv "vwm_momentum_1" "XPL" "bid" 1 100 "market").2
      = Except.error (PyFault.attributeError "symbol_blacklist") :=
  ⟨by decide, rfl⟩

/-- C2 counterexample: an internal fault while reading the portfolio value,
the daily PnL or the positions is not propagated as an error — each helper
catches it and silently returns a default (`100000.0`, `0.0`, `[]`), and a
downstream check (`check_leverage`) evaluates against those defaults and
approves, contradicting the claim that no fault is silently replaced by a
default that lets the evaluation approve. -/
theorem c2_fault_swallowed_counterexample :
    get_portfolio_value (.ok 100000) (.error .dbError) = 100000 ∧
    calculate_daily_pnl (.error .dbError) = 0 ∧
    get_current_positions (.error .dbError) = ([] : List PosRow) ∧
    (check_leverage faultyEnv 1000).approved = true := by
  refine ⟨rfl, rfl, rfl, ?_⟩
  norm_num [check_leverage, faultyEnv, okEnv, get_portfolio_value,
    get_current_positions, limitsOf]

/-- C2 (amended): database faults inside `get_portfolio_value`,
`get_current_positions` and `calculate_daily_pnl` are caught and replaced by
the defaults `100000.0`, `[]` and `0.0` — they never propagate out as
errors — and checks such as `check_leverage` then evaluate against those
defaults and can approve. -/
theorem c2_faults_resolve_to_defaults (f : PyFault)
    (cash : Except PyFault ℚ) (db : Except PyFault (Option ℚ × Option ℚ)) :
    get_portfolio_value cash (.error f) = 100000 ∧
    get_portfolio_value (.error f) db = 100000 ∧
    calculate_daily_pnl (.error f) = 0 ∧
    get_current_positions (.error f) = ([] : List PosRow) ∧
    (check_leverage faultyEnv 1000).approved = true := by
  refine ⟨?_, ?_, rfl, rfl, ?_⟩
  · cases cash <;> rfl
  · cases db <;> rfl
  · norm_num [check_leverage, faultyEnv, okEnv, get_portfolio_value,
      get_current_positions, limitsOf]

/-- C9: `HedgeTrigger.evaluate` returns `ACTIVATE_MR_SHORTS` when the long
book is winning (`long_pnl_pct` above the profit threshold) and over-extended
(`net_long` above the high-exposure threshold); otherwise
`ACTIVATE_MR_LONGS` when the short-exposure magnitude exceeds its threshold;
otherwise `NONE`. -/
theorem c9_hedge_trigger_cases (ht : HedgeTrigger) (s : ExposureState) :
    (ht.profit_threshold < s.long_pnl_pct ∧ ht.high_exposure_threshold < s.net_long →
      ht.evaluate s = HedgeAction.ACTIVATE_MR_SHORTS) ∧
    (¬(ht.profit_threshold < s.long_pnl_pct ∧ ht.high_exposure_threshold < s.net_long) →
      ht.short_threshold < s.short_exposure →
      ht.evaluate s = HedgeAction.ACTIVATE_MR_LONGS) ∧
    (¬(ht.profit_threshold < s.long_pnl_pct ∧ ht.high_exposure_threshold < s.net_long) →
      ¬(ht.short_threshold < s.short_exposure) →
      ht.evaluate s = HedgeAction.NONE) := by
  unfold HedgeTrigger.evaluate
  refine ⟨fun h => ?_, fun h1 h2 => ?_, fun h1 h2 => ?_⟩
  · rw [if_pos h]
  · rw [if_neg h1, if_pos h2]
  · rw [if_neg h1, if_neg h2]

/-- C9 witness: the spec's example (`long_pnl_pct = 0.15 > 0.1`,
`net_long = 0.8 > 0.7`, default thresholds) activates MR shorts. -/
theorem c9_witness :
    ({} : HedgeTrigger).profit_threshold < (3 : ℚ)/20 ∧
    ({} : HedgeTrigger).high_exposure_threshold < (4 : ℚ)/5 ∧
    HedgeTrigger.evaluate {} ⟨0, 0, 0, 4/5, 3/20⟩ = HedgeAction.ACTIVATE_MR_SHORTS :=
  ⟨by norm_num, by norm_num,
    (c9_hedge_trigger_cases {} ⟨0, 0, 0, 4/5, 3/20⟩).1 ⟨by norm_num, by norm_num⟩⟩

/-- C10: in `calculate_exposure` a position counts toward `long_exposure`
iff its stored side is exactly `"LONG"`; every other side string counts
toward `short_exposure`.  The engine records positions with the raw
signal-type strings, none of which is `"LONG"`, so engine-recorded books
have `long_exposure = 0` and everything in `short_exposure`. -/
theorem c10_long_iff_literal_LONG (ps : List ExpoPosition) :
    ((calculate_exposure ps).1
        = ((ps.filter (fun p => decide (p.side = "LONG"))).map ExpoPosition.value).sum ∧
      (calculate_exposure ps).2
        = ((ps.filter (fun p => !decide (p.side = "LONG"))).map ExpoPosition.value).sum) ∧
    (∀ t : SignalType, engineRecordedSide t ≠ "LONG") ∧
    ((∀ p ∈ ps, ∃ t : SignalType, p.side = engineRecordedSide t) →
      (calculate_exposure ps).1 = 0 ∧
      (calculate_exposure ps).2 = (ps.map ExpoPosition.value).sum) := by
  refine ⟨⟨by rw [calculate_exposure_spec], by rw [calculate_exposure_spec]⟩, ?_, ?_⟩
  · intro t; cases t <;> decide
  · intro h
    have hnone : ∀ p ∈ ps, ¬(p.side = "LONG") := by
      intro p hp
      obtain ⟨t, ht⟩ := h p hp
      rw [ht]
      cases t <;> decide
    have h1 : ps.filter (fun p => decide (p.side = "LONG")) = [] :=
      List.filter_eq_nil_iff.mpr (fun p hp => by simpa using hnone p hp)
    have h2 : ps.filter (fun p => !decide (p.side = "LONG")) = ps :=
      List.filter_eq_self.mpr (fun p hp => by simpa using hnone p hp)
    rw [calculate_exposure_spec]
    simp [h1, h2]

/-- C10 witness: a book recorded by the engine from a `buy` and a `sell`
signal is counted entirely as short exposure. -/
theorem c10_witness :
    (calculate_exposure [⟨"buy", 100⟩, ⟨"sell", 50⟩]).1 = 0 ∧
    (calculate_exposure [⟨"buy", 100⟩, ⟨"sell", 50⟩]).2
      = (([⟨"buy", 100⟩, ⟨"sell", 50⟩] : List ExpoPosition).map ExpoPosition.value).sum := by
  refine (c10_long_iff_literal_LONG [⟨"buy", 100⟩, ⟨"sell", 50⟩]).2.2 ?_
  intro p hp
  rcases List.mem_cons.mp hp with h | h
  · exact ⟨SignalType.buy, by rw [h]; rfl⟩
  · rcases List.mem_cons.mp h with h2 | h2
    · exact ⟨SignalType.sell, by rw [h2]; rfl⟩
    · exact absurd h2 (List.not_mem_nil p)

/-- C4: an Order row is persisted with status `"submitted"` only when the
exchange returned an HTTP-200 body with a truthy `success` carrying a truthy
order id; when the submission call raised (timeout / HTTP error) nothing is
persisted; a 200 body without `success` is persisted (if at all) with status
`"failed"`. -/
theorem c4_submitted_requires_success
    (riskResult : Except PyFault RiskCheckResult) (paperTrading clientReady : Bool)
    (sig : TradingSignal) (cid : String) (exch : Except PyFault ExchBody)
    (dbOk : Bool) :
    (∀ row,
      (create_order riskResult paperTrading clientReady sig cid exch dbOk).savedOrder
          = some row →
      row.status = "submitted" →
      ∃ body, exch = .ok body ∧ body.success = true ∧
        pyTruthyStr (pacificaOrderId body) = true) ∧
    (∀ e, exch = .error e →
      (create_order riskResult paperTrading clientReady sig cid exch dbOk).savedOrder
        = none) ∧
    (∀ body, exch = .ok body → body.success = false →
      ∀ row,
        (create_order riskResult paperTrading clientReady sig cid exch dbOk).savedOrder
            = some row →
        row.status = "failed") := by
  refine ⟨?_, ?_, ?_⟩
  · intro row hrow hstat
    cases riskResult with
    | error e => simp [create_order] at hrow
    | ok rc =>
      cases hap : rc.approved <;>
        cases paperTrading <;> cases clientReady <;> cases exch <;> cases dbOk <;>
        simp_all [create_order]
      rename_i body
      subst hrow
      dsimp only at hstat
      by_cases htid : pyTruthyStr (pacificaOrderId body) = true
      · refine ⟨?_, htid⟩
        cases hsucc : body.success
        · exfalso
          simp [pacificaOrderId, hsucc, pyTruthyStr] at htid
        · rfl
      · rw [if_neg htid] at hstat
        exact absurd hstat (by decide)
  · intro e he
    subst he
    cases riskResult with
    | error e2 => simp [create_order]
    | ok rc => cases hap : rc.approved <;> cases paperTrading <;> cases clientReady <;>
        simp_all [create_order]
  · intro body hb hsucc row hrow
    subst hb
    cases riskResult with
    | error e => simp [create_order] at hrow
    | ok rc =>
      cases hap : rc.approved <;> cases paperTrading <;> cases clientReady <;>
        cases dbOk <;> simp_all [create_order, pacificaOrderId, pyTruthyStr]
      rw [← hrow]

/-- C4 witness: a timeout (raised by the client) leaves nothing persisted. -/
theorem c4_witness :
    (create_order (.ok ⟨true, "All risk checks passed"⟩) false true
      ⟨SignalType.buy, "BTC", 100, 1, none, none⟩ "cid-1" (.error .timeout)
      true).savedOrder = none :=
  (c4_submitted_requires_success (.ok ⟨true, "All risk checks passed"⟩) false true
    ⟨SignalType.buy, "BTC", 100, 1, none, none⟩ "cid-1" (.error .timeout)
    true).2.1 .timeout rfl

/-- C3 counterexample: a live submission whose HTTP-200 body has
`success = false` — no exchange order id is obtained and the row is saved as
`"failed"` — still makes `create_order` return the client order id, so
`process_signals` invokes `record_trade` and the failed signal consumes
cooldown / daily-cap budget, contradicting the claim. -/
theorem c3_failed_submission_consumes_budget :
    pacificaOrderId ⟨false, RespData.absent, none⟩ = none ∧
    record_trade_invoked (.ok ⟨true, "All risk checks passed"⟩) false true
      ⟨SignalType.buy, "BTC", 100, 1, none, none⟩ "cid-1"
      (.ok ⟨false, RespData.absent, none⟩) true = true ∧
    (create_order (.ok ⟨true, "All risk checks passed"⟩) false true
      ⟨SignalType.buy, "BTC", 100, 1, none, none⟩ "cid-1"
      (.ok ⟨false, RespData.absent, none⟩) true).savedOrder
      = some { order_id := "failed-" ++ "cid-1", client_order_id := "cid-1",
               symbol := "BTC", side := orderSideOf SignalType.buy,
               amount := pyRound 1 2, price := 100, status := "failed" } :=
  ⟨rfl, rfl, rfl⟩

/-- C3 (amended): `record_trade` is skipped when the risk gate faults or
rejects and when the submission call raises (timeout / HTTP error), but it
runs for every live submission that returns an HTTP-200 body — even one
without `success` or an order id (and for every paper-trading fill) — so
such failed submissions do consume cooldown / daily-cap budget. -/
theorem c3_record_trade_gating
    (riskResult : Except PyFault RiskCheckResult) (paperTrading clientReady : Bool)
    (sig : TradingSignal) (cid : String) (exch : Except PyFault ExchBody)
    (dbOk : Bool) :
    (∀ e, riskResult = .error e →
      record_trade_invoked riskResult paperTrading clientReady sig cid exch dbOk
        = false) ∧
    (∀ rc, riskResult = .ok rc → rc.approved = false →
      record_trade_invoked riskResult paperTrading clientReady sig cid exch dbOk
        = false) ∧
    (∀ e, exch = .error e → paperTrading = false →
      record_trade_invoked riskResult paperTrading clientReady sig cid exch dbOk
        = false) ∧
    (∀ rc body, riskResult = .ok rc → rc.approved = true → paperTrading = false →
      clientReady = true → exch = .ok body → cid.data.isEmpty = false →
      record_trade_invoked riskResult paperTrading clientReady sig cid exch dbOk
        = true) := by
  refine ⟨?_, ?_, ?_, ?_⟩
  · intro e he; subst he; rfl
  · intro rc hrc hap; subst hrc
    simp [record_trade_invoked, create_order, hap, pyTruthyStr]
  · intro e he hp; subst he; subst hp
    cases riskResult with
    | error e2 => rfl
    | ok rc =>
      cases hap : rc.approved <;> cases clientReady <;>
        simp_all [record_trade_invoked, create_order, pyTruthyStr]
  · intro rc body hrc hap hp hr hb hcid
    subst hrc; subst hp; subst hr; subst hb
    simp [record_trade_invoked, create_order, hap, pyTruthyStr, hcid]

/-- C3 witness: a successful live submission (200 body, `success = true`,
order id present) does invoke `record_trade`. -/
theorem c3_witness :
    record_trade_invoked (.ok ⟨true, "All risk checks passed"⟩) false true
      ⟨SignalType.buy, "BTC", 100, 1, none, none⟩ "cid-1"
      (.ok ⟨true, RespData.dict (some "94521"), none⟩) true = true :=
  (c3_record_trade_gating (.ok ⟨true, "All risk checks passed"⟩) false true
    ⟨SignalType.buy, "BTC", 100, 1, none, none⟩ "cid-1"
    (.ok ⟨true, RespData.dict (some "94521"), none⟩) true).2.2.2
    ⟨true, "All risk checks passed"⟩ ⟨true, RespData.dict (some "94521"), none⟩
    rfl rfl rfl rfl rfl rfl

theorem validate_tpsl_sl_eq (symbol side : String) (entry s : ℚ) (tp : Option ℚ) :
    (validate_tpsl symbol side entry (some s) tp).1 =
      if 0 < s then
        if pyLower side = "bid" then
          if s ≥ entry then none
          else if round_to_tick_size s (get_tick_size symbol) ≥ entry then
            some (round_to_tick_size (entry - get_tick_size symbol)
              (get_tick_size symbol))
          else some (round_to_tick_size s (get_tick_size symbol))
        else
          if s ≤ entry then none
          else if round_to_tick_size s (get_tick_size symbol) ≤ entry then
            some (round_to_tick_size (entry + get_tick_size symbol)
              (get_tick_size symbol))
          else some (round_to_tick_size s (get_tick_size symbol))
      else none := by
  unfold validate_tpsl
  rw [if_neg (by simp)]

theorem validate_tpsl_tp_eq (symbol side : String) (entry t : ℚ) (sl : Option ℚ) :
    (validate_tpsl symbol side entry sl (some t)).2 =
      if 0 < t then
        if pyLower side = "bid" then
          if t ≤ entry then none
          else if round_to_tick_size t (get_tick_size symbol) ≤ entry then
            some (round_to_tick_size (entry + get_tick_size symbol)
              (get_tick_size symbol))
          else some (round_to_tick_size t (get_tick_size symbol))
        else
          if t ≥ entry then none
          else if round_to_tick_size t (get_tick_size symbol) ≥ entry then
            some (round_to_tick_size (entry - get_tick_size symbol)
              (get_tick_size symbol))
          else some (round_to_tick_size t (get_tick_size symbol))
      else none := by
  unfold validate_tpsl
  rw [if_neg (by simp)]

/-- C8: for a long (`bid`) position a stop loss at or above entry validates
to `none` (never silently accepted); and whenever a stop/target lies on the
correct side of entry but tick rounding lands it on the wrong side, the
validated value becomes the tick-rounding of entry ∓ one tick — one further
tick away from entry — instead of the order being discarded; all four
stop/target × long/short combinations are covered. -/
theorem c8_tpsl_validation (symbol : String) (entry s t : ℚ) (sl tp : Option ℚ) :
    (0 < s → entry ≤ s → (validate_tpsl symbol "bid" entry (some s) tp).1 = none) ∧
    (0 < s → s < entry → entry ≤ round_to_tick_size s (get_tick_size symbol) →
      (validate_tpsl symbol "bid" entry (some s) tp).1
        = some (round_to_tick_size (entry - get_tick_size symbol)
            (get_tick_size symbol))) ∧
    (0 < s → s ≤ entry → (validate_tpsl symbol "ask" entry (some s) tp).1 = none) ∧
    (0 < s → entry < s → round_to_tick_size s (get_tick_size symbol) ≤ entry →
      (validate_tpsl symbol "ask" entry (some s) tp).1
        = some (round_to_tick_size (entry + get_tick_size symbol)
            (get_tick_size symbol))) ∧
    (0 < t → t ≤ entry → (validate_tpsl symbol "bid" entry sl (some t)).2 = none) ∧
    (0 < t → entry < t → round_to_tick_size t (get_tick_size symbol) ≤ entry →
      (validate_tpsl symbol "bid" entry sl (some t)).2
        = some (round_to_tick_size (entry + get_tick_size symbol)
            (get_tick_size symbol))) ∧
    (0 < t → entry ≤ t → (validate_tpsl symbol "ask" entry sl (some t)).2 = none) ∧
    (0 < t → t < entry → entry ≤ round_to_tick_size t (get_tick_size symbol) →
      (validate_tpsl symbol "ask" entry sl (some t)).2
        = some (round_to_tick_size (entry - get_tick_size symbol)
            (get_tick_size symbol))) := by
  have hbid : pyLower "bid" = "bid" := by decide
  have hask : ¬(pyLower "ask" = "bid") := by decide
  refine ⟨?_, ?_, ?_, ?_, ?_, ?_, ?_, ?_⟩
  · intro h0 hge
    rw [validate_tpsl_sl_eq, if_pos h0, if_pos hbid, if_pos hge]
  · intro h0 hlt hround
    rw [validate_tpsl_sl_eq, if_pos h0, if_pos hbid, if_neg (not_le.mpr hlt),
      if_pos hround]
  · intro h0 hle
    rw [validate_tpsl_sl_eq, if_pos h0, if_neg hask, if_pos hle]
  · intro h0 hgt hround
    rw [validate_tpsl_sl_eq, if_pos h0, if_neg hask, if_neg (not_le.mpr hgt),
      if_pos hround]
  · intro h0 hle
    rw [validate_tpsl_tp_eq, if_pos h0, if_pos hbid, if_pos hle]
  · intro h0 hgt hround
    rw [validate_tpsl_tp_eq, if_pos h0, if_pos hbid, if_neg (not_le.mpr hgt),
      if_pos hround]
  · intro h0 hge
    rw [validate_tpsl_tp_eq, if_pos h0, if_neg hask, if_pos hge]
  · intro h0 hlt hround
    rw [validate_tpsl_tp_eq, if_pos h0, if_neg hask, if_neg (not_le.mpr hlt),
      if_pos hround]

/-- C8 witness: the spec's example — long position, entry 100, requested
stop loss 101 (above entry) — validates to no stop loss. -/
theorem c8_witness :
    (0 : ℚ) < 101 ∧ (100 : ℚ) ≤ 101 ∧
    (validate_tpsl "BTC" "bid" 100 (some 101) none).1 = none :=
  ⟨by norm_num, by norm_num,
    (c8_tpsl_validation "BTC" 100 101 1 none none).1 (by norm_num) (by norm_num)⟩

theorem halfEvenZ_intCast (m : ℤ) : halfEvenZ (m : ℚ) = m := by
  unfold halfEvenZ
  rw [Int.floor_intCast]
  norm_num

theorem pyRound_fixed (m : ℤ) (d : ℕ) :
    pyRound ((m : ℚ) / 10 ^ d) d = (m : ℚ) / 10 ^ d := by
  unfold pyRound
  rw [div_mul_cancel₀ _ (by positivity : ((10:ℚ) ^ d) ≠ 0), halfEvenZ_intCast]

theorem decimalPlacesOf_pow (k : ℕ) : decimalPlacesOf ((1:ℚ)/10 ^ k) = k := by
  unfold decimalPlacesOf
  have h : ((1:ℚ)/10 ^ k) = ((10:ℕ):ℚ) ^ (-(k:ℤ)) := by
    rw [zpow_neg, zpow_natCast]
    push_cast
    rw [one_div]
  rw [h, Int.log_zpow (by norm_num : 1 < 10), neg_neg]
  rw [max_eq_right (Int.natCast_nonneg k)]
  omega

theorem round_to_lot_size_pow (a : ℚ) (k : ℕ) :
    round_to_lot_size a ((1:ℚ)/10 ^ k) = (⌊a * 10 ^ k⌋ : ℚ) / 10 ^ k := by
  unfold round_to_lot_size
  rw [if_neg (not_le.mpr (by positivity)), decimalPlacesOf_pow]
  have h1 : a / ((1:ℚ)/10 ^ k) = a * 10 ^ k := by field_simp
  rw [h1]
  have h2 : (⌊a * 10 ^ k⌋ : ℚ) * ((1:ℚ)/10 ^ k) = (⌊a * 10 ^ k⌋ : ℚ) / 10 ^ k := by
    ring
  rw [h2, pyRound_fixed]

/-- C7 (amended): the adapter's `round_to_lot_size` does normalize toward
zero on the decimal lot grids the client uses (`lot = 10^-k`): the result is
the floor to the lot grid, a multiple of the lot, never exceeding the amount
the adapter was given, and `0.1234 @ lot 0.01 ↦ 0.12`.  (The engine's
pre-rounding, shown in the counterexample, can still push the end-to-end
amount above the originally requested one.) -/
theorem c7_lot_normalization (a : ℚ) (k : ℕ) :
    round_to_lot_size a ((1:ℚ)/10 ^ k) = (⌊a * 10 ^ k⌋ : ℚ) / 10 ^ k ∧
    round_to_lot_size a ((1:ℚ)/10 ^ k) ≤ a ∧
    (∃ m : ℤ, round_to_lot_size a ((1:ℚ)/10 ^ k) = (m : ℚ) * ((1:ℚ)/10 ^ k)) ∧
    round_to_lot_size (1234/10000) ((1:ℚ)/10 ^ 2) = 12/100 := by
  refine ⟨round_to_lot_size_pow a k, ?_, ⟨⌊a * 10 ^ k⌋, ?_⟩, ?_⟩
  · rw [round_to_lot_size_pow, div_le_iff₀ (by positivity)]
    exact Int.floor_le _
  · rw [round_to_lot_size_pow]; ring
  · rw [round_to_lot_size_pow]
    norm_num

/-- C7 counterexample: the engine pre-rounds with Python `round(amount, 2)`
(half-to-even), which can round up: a requested `0.1299` on `SOL`
(lot 0.01) is submitted as `0.13 > 0.1299`, so the full engine path does not
round toward zero and can exceed the requested amount. -/
theorem c7_engine_path_exceeds_requested :
    engine_submitted_amount (1299/10000) "SOL" = 13/100 ∧
    (1299/10000 : ℚ) < 13/100 := by
  constructor
  · unfold engine_submitted_amount
    have hlot : get_lot_size "SOL" = (1:ℚ)/10 ^ 2 := by
      have h0 : get_lot_size "SOL" = 1/100 := rfl
      rw [h0]; norm_num
    rw [hlot]
    have hr : pyRound (1299/10000) 2 = 13/100 := by
      unfold pyRound
      have h1 : (1299/10000 : ℚ) * 10 ^ 2 = 1299/100 := by norm_num
      rw [h1]
      have h2 : halfEvenZ (1299/100) = 13 := by
        unfold halfEvenZ
        have hf : ⌊(1299/100 : ℚ)⌋ = 12 := by norm_num
        rw [hf]
        norm_num
      rw [h2]
      norm_num
    rw [hr, round_to_lot_size_pow]
    norm_num
  · norm_num

theorem containsStr_iff (l : List String) (a : String) :
    l.contains a = true ↔ a ∈ l := by
  constructor
  · intro h; exact List.elem_iff.mp h
  · intro h; exact List.elem_iff.mpr h

theorem findPos_some_symbol {ps : List LocalPos} {s : String} {q : LocalPos}
    (h : findPos ps s = some q) : q.symbol = s := by
  have hb := List.find?_some h
  exact eq_of_beq hb

theorem findPos_mem {ps : List LocalPos} {s : String} {q : LocalPos}
    (h : findPos ps s = some q) : q ∈ ps :=
  List.mem_of_find?_eq_some h

theorem overwriteFromPac_symbol (q : LocalPos) (p : PacPos) :
    (overwriteFromPac q p).symbol = q.symbol := rfl

theorem updateFirst_symbols (ps : List LocalPos) (p : PacPos) :
    (updateFirst ps p).map LocalPos.symbol = ps.map LocalPos.symbol := by
  induction ps with
  | nil => rfl
  | cons q rest ih =>
    unfold updateFirst
    by_cases h : q.symbol = p.symbol
    · rw [if_pos h]
      simp [overwriteFromPac_symbol]
    · rw [if_neg h]
      simp [ih]


theorem findPos_cons_pos {q : LocalPos} {rest : List LocalPos} {s : String}
    (h : (q.symbol == s) = true) : findPos (q :: rest) s = some q := by
  unfold findPos
  exact @List.find?_cons_of_pos _ (fun r => r.symbol == s) q rest h

theorem findPos_cons_neg {q : LocalPos} {rest : List LocalPos} {s : String}
    (h : (q.symbol == s) = false) : findPos (q :: rest) s = findPos rest s := by
  unfold findPos
  exact @List.find?_cons_of_neg _ (fun r => r.symbol == s) q rest (by simp [h])

theorem findPos_updateFirst_ne (ps : List LocalPos) (p : PacPos) (s : String)
    (h : s ≠ p.symbol) : findPos (updateFirst ps p) s = findPos ps s := by
  induction ps with
  | nil => rfl
  | cons q rest ih =>
    unfold updateFirst
    by_cases hq : q.symbol = p.symbol
    · rw [if_pos hq]
      have h1 : ((overwriteFromPac q p).symbol == s) = false := by
        rw [overwriteFromPac_symbol, hq, beq_eq_false_iff_ne]
        exact fun hh => h hh.symm
      have h2 : (q.symbol == s) = false := by
        rw [hq, beq_eq_false_iff_ne]
        exact fun hh => h hh.symm
      rw [findPos_cons_neg h1, findPos_cons_neg h2]
    · rw [if_neg hq]
      cases hqs : (q.symbol == s) with
      | true => rw [findPos_cons_pos hqs, findPos_cons_pos hqs]
      | false =>
        rw [findPos_cons_neg hqs, findPos_cons_neg hqs]
        exact ih

theorem findPos_updateFirst_eq (ps : List LocalPos) (p : PacPos) :
    findPos (updateFirst ps p) p.symbol
      = (findPos ps p.symbol).map (fun q => overwriteFromPac q p) := by
  induction ps with
  | nil => rfl
  | cons q rest ih =>
    unfold updateFirst
    by_cases hq : q.symbol = p.symbol
    · rw [if_pos hq]
      have h1 : ((overwriteFromPac q p).symbol == p.symbol) = true := by
        rw [overwriteFromPac_symbol, hq]
        exact beq_self_eq_true _
      have h2 : (q.symbol == p.symbol) = true := by
        rw [hq]
        exact beq_self_eq_true _
      rw [findPos_cons_pos h1, findPos_cons_pos h2]
      rfl
    · rw [if_neg hq]
      have hqp : (q.symbol == p.symbol) = false := beq_eq_false_iff_ne.mpr hq
      rw [findPos_cons_neg hqp, findPos_cons_neg hqp]
      exact ih

theorem findPos_append_single_of_some {ps : List LocalPos} {s : String}
    {q : LocalPos} (x : LocalPos) (h : findPos ps s = some q) :
    findPos (ps ++ [x]) s = some q := by
  induction ps with
  | nil => exact absurd h (by simp [findPos])
  | cons r rest ih =>
    rw [List.cons_append]
    cases hrs : (r.symbol == s) with
    | true =>
      rw [findPos_cons_pos hrs] at h
      rw [findPos_cons_pos hrs]
      exact h
    | false =>
      rw [findPos_cons_neg hrs] at h
      rw [findPos_cons_neg hrs]
      exact ih h

theorem findPos_append_single_of_none {ps : List LocalPos} {s : String}
    (x : LocalPos) (h : findPos ps s = none) :
    findPos (ps ++ [x]) s = if x.symbol = s then some x else none := by
  induction ps with
  | nil =>
    rw [List.nil_append]
    by_cases hx : x.symbol = s
    · rw [findPos_cons_pos (beq_iff_eq.mpr hx), if_pos hx]
    · rw [findPos_cons_neg (beq_eq_false_iff_ne.mpr hx), if_neg hx]
      rfl
  | cons r rest ih =>
    rw [List.cons_append]
    cases hrs : (r.symbol == s) with
    | true =>
      rw [findPos_cons_pos hrs] at h
      exact absurd h (by simp)
    | false =>
      rw [findPos_cons_neg hrs] at h
      rw [findPos_cons_neg hrs]
      exact ih h

theorem hasSymbol_eq_isSome (ps : List LocalPos) (s : String) :
    hasSymbol ps s = (findPos ps s).isSome := by
  induction ps with
  | nil => rfl
  | cons q rest ih =>
    unfold hasSymbol at *
    simp only [List.any_cons]
    cases hqs : (q.symbol == s) with
    | true => rw [findPos_cons_pos hqs]; rfl
    | false =>
      rw [findPos_cons_neg hqs, Bool.false_or]
      exact ih

theorem foldl_applyPac_not_mem (l : List PacPos) (st : SyncState) (s : String)
    (h : ∀ p ∈ l, p.symbol ≠ s) :
    findPos (l.foldl applyPac st).positions s = findPos st.positions s := by
  induction l generalizing st with
  | nil => rfl
  | cons p rest ih =>
    rw [List.foldl_cons, ih _ (fun r hr => h r (List.mem_cons_of_mem _ hr))]
    have hp : p.symbol ≠ s := h p (List.mem_cons_self _ _)
    unfold applyPac
    by_cases h0 : p.amount = 0
    · rw [if_pos h0]
    · rw [if_neg h0]
      by_cases hh : hasSymbol st.positions p.symbol = true
      · rw [if_pos hh]
        exact findPos_updateFirst_ne _ _ _ (fun he => hp he.symm)
      · rw [if_neg hh]
        show findPos (st.positions ++ [newFromPac p]) s = findPos st.positions s
        cases hf : findPos st.positions s with
        | none =>
          rw [findPos_append_single_of_none _ hf,
            if_neg (show ¬((newFromPac p).symbol = s) from hp)]
        | some q =>
          rw [findPos_append_single_of_some _ hf]

theorem findPos_applyPac_self (st : SyncState) (p : PacPos)
    (h0 : ¬(p.amount = 0)) :
    ∃ q, findPos (applyPac st p).positions p.symbol = some q ∧
      q.symbol = p.symbol ∧ q.side = p.side ∧ q.amount = p.amount ∧
      q.entry_price = p.entry_price := by
  unfold applyPac
  rw [if_neg h0]
  by_cases hh : hasSymbol st.positions p.symbol = true
  · rw [if_pos hh]
    obtain ⟨q0, hq0⟩ : ∃ q0, findPos st.positions p.symbol = some q0 := by
      cases hff : findPos st.positions p.symbol with
      | none => rw [hasSymbol_eq_isSome, hff] at hh; exact absurd hh (by simp)
      | some q0 => exact ⟨q0, rfl⟩
    refine ⟨overwriteFromPac q0 p, ?_, ?_, rfl, rfl, rfl⟩
    · show findPos (updateFirst st.positions p) p.symbol = _
      rw [findPos_updateFirst_eq, hq0]
      rfl
    · rw [overwriteFromPac_symbol]
      exact findPos_some_symbol hq0
  · rw [if_neg hh]
    have hnone : findPos st.positions p.symbol = none := by
      cases hff : findPos st.positions p.symbol with
      | none => rfl
      | some q =>
        exfalso
        apply hh
        rw [hasSymbol_eq_isSome, hff]
        rfl
    refine ⟨newFromPac p, ?_, rfl, rfl, rfl, rfl⟩
    show findPos (st.positions ++ [newFromPac p]) p.symbol = _
    rw [findPos_append_single_of_none _ hnone,
      if_pos (show (newFromPac p).symbol = p.symbol from rfl)]

theorem foldl_applyPac_symbol_mem (l : List PacPos) (st : SyncState) :
    ∀ q ∈ (l.foldl applyPac st).positions,
      q.symbol ∈ st.positions.map LocalPos.symbol ∨ q.symbol ∈ l.map PacPos.symbol := by
  induction l generalizing st with
  | nil =>
    intro q hq
    left
    exact List.mem_map_of_mem _ hq
  | cons p rest ih =>
    intro q hq
    rw [List.foldl_cons] at hq
    rcases ih (applyPac st p) q hq with h | h
    · unfold applyPac at h
      by_cases h0 : p.amount = 0
      · rw [if_pos h0] at h
        left
        exact h
      · rw [if_neg h0] at h
        by_cases hh : hasSymbol st.positions p.symbol = true
        · rw [if_pos hh] at h
          dsimp only at h
          rw [updateFirst_symbols] at h
          left
          exact h
        · rw [if_neg hh] at h
          dsimp only at h
          rw [List.map_append] at h
          rcases List.mem_append.mp h with h2 | h2
          · left
            exact h2
          · right
            simp only [List.map_cons, List.map_nil, List.mem_singleton] at h2
            rw [List.map_cons]
            rw [show (newFromPac p).symbol = p.symbol from rfl] at h2
            rw [h2]
            exact List.mem_cons_self _ _
    · right
      rw [List.map_cons]
      exact List.mem_cons_of_mem _ h

theorem overwriteFromPac_id (q : LocalPos) (p : PacPos)
    (h1 : q.side = p.side) (h2 : q.amount = p.amount)
    (h3 : q.entry_price = p.entry_price) : overwriteFromPac q p = q := by
  cases q
  unfold overwriteFromPac
  simp_all

theorem updateFirst_id_of_first (ps : List LocalPos) (p : PacPos)
    (h : ∀ q, findPos ps p.symbol = some q → overwriteFromPac q p = q) :
    updateFirst ps p = ps := by
  induction ps with
  | nil => rfl
  | cons q rest ih =>
    unfold updateFirst
    by_cases hq : q.symbol = p.symbol
    · rw [if_pos hq]
      have hfind : findPos (q :: rest) p.symbol = some q :=
        findPos_cons_pos (by rw [hq]; exact beq_self_eq_true _)
      rw [h q hfind]
    · rw [if_neg hq]
      rw [ih ?_]
      intro r hr
      apply h
      rw [findPos_cons_neg (beq_eq_false_iff_ne.mpr hq)]
      exact hr

theorem foldl_applyPac_id (l : List PacPos) (ps : List LocalPos) (u c : Nat)
    (h : ∀ p ∈ l, ¬(p.amount = 0) ∧ hasSymbol ps p.symbol = true ∧
      updateFirst ps p = ps) :
    l.foldl applyPac ⟨ps, u, c⟩ = ⟨ps, u + l.length, c⟩ := by
  induction l generalizing u with
  | nil => simp
  | cons p rest ih =>
    rw [List.foldl_cons]
    obtain ⟨h0, hh, hup⟩ := h p (List.mem_cons_self _ _)
    have hstep : applyPac ⟨ps, u, c⟩ p = ⟨ps, u + 1, c⟩ := by
      unfold applyPac
      dsimp only
      rw [if_neg h0, if_pos hh, hup]
    rw [hstep, ih (u + 1) (fun r hr => h r (List.mem_cons_of_mem _ hr))]
    have hlen : u + 1 + rest.length = u + (p :: rest).length := by
      rw [List.length_cons]
      omega
    rw [hlen]

theorem sync_find_none (localPs : List LocalPos) (exch : List PacPos)
    (s : String) (hs : ∀ p ∈ exch, p.symbol ≠ s) :
    findPos (syncPositions localPs exch).final s = none := by
  have hfin : (syncPositions localPs exch).final
      = (exch.foldl applyPac ⟨keptOf localPs exch, 0, 0⟩).positions := rfl
  rw [hfin, foldl_applyPac_not_mem _ _ _ hs]
  show findPos (keptOf localPs exch) s = none
  cases hf : findPos (keptOf localPs exch) s with
  | none => rfl
  | some q =>
    exfalso
    have hqs := findPos_some_symbol hf
    have hmem := findPos_mem hf
    have hcont := (List.mem_filter.mp hmem).2
    have hmem2 : q.symbol ∈ pacSymbolsOf exch := (containsStr_iff _ _).mp hcont
    unfold pacSymbolsOf at hmem2
    obtain ⟨p, hp, hps⟩ := List.mem_map.mp hmem2
    exact hs p (List.mem_of_mem_filter hp) (by rw [hps, hqs])

theorem sync_find_exch (localPs : List LocalPos) (exch : List PacPos)
    (hpos : ∀ p ∈ exch, 0 < p.amount)
    (hnd : (exch.map PacPos.symbol).Nodup) :
    ∀ p ∈ exch, ∃ q,
      findPos (syncPositions localPs exch).final p.symbol = some q ∧
      q.symbol = p.symbol ∧ q.side = p.side ∧ q.amount = p.amount ∧
      q.entry_price = p.entry_price := by
  intro p hp
  have hamt : ¬(p.amount = 0) := (hpos p hp).ne'
  obtain ⟨l1, l2, hsplit⟩ := List.append_of_mem hp
  have hfin : (syncPositions localPs exch).final
      = (exch.foldl applyPac ⟨keptOf localPs exch, 0, 0⟩).positions := rfl
  rw [hfin]
  have hnl2 : ∀ r ∈ l2, r.symbol ≠ p.symbol := by
    intro r hr heq
    rw [hsplit, List.map_append, List.map_cons] at hnd
    have h2 := hnd.of_append_right
    rw [List.nodup_cons] at h2
    exact h2.1 (heq ▸ List.mem_map_of_mem _ hr)
  rw [hsplit, List.foldl_append, List.foldl_cons]
  rw [foldl_applyPac_not_mem _ _ _ hnl2]
  exact findPos_applyPac_self _ p hamt

/-- C5: one run of `sync_positions_from_pacifica` (exchange set filtered to
positive amounts, symbols unique per side as the `(strategy_id, symbol)`
invariant guarantees) deletes local rows the exchange does not report,
and leaves, for every reported symbol, a row carrying exactly the exchange's
`side`, `amount` and `entry_price` — created when missing, overwritten when
present; the exchange always wins. -/
theorem c5_exchange_wins (localPs : List LocalPos) (exch : List PacPos)
    (hlnd : (localPs.map LocalPos.symbol).Nodup)
    (hpos : ∀ p ∈ exch, 0 < p.amount)
    (hnd : (exch.map PacPos.symbol).Nodup) :
    (∀ s, (∀ p ∈ exch, p.symbol ≠ s) →
      findPos (syncPositions localPs exch).final s = none) ∧
    (∀ p ∈ exch, ∃ q,
      findPos (syncPositions localPs exch).final p.symbol = some q ∧
      q.symbol = p.symbol ∧ q.side = p.side ∧ q.amount = p.amount ∧
      q.entry_price = p.entry_price) :=
  ⟨fun s hs => sync_find_none localPs exch s hs,
   sync_find_exch localPs exch hpos hnd⟩

/-- C5 witness: the spec's examples in one state — the local ghost `BTC` is
deleted and `ETH`, reported only by the exchange at `2 @ 3000`, appears
locally with the exchange's values. -/
theorem c5_witness :
    findPos (syncPositions [⟨"BTC", "bid", 1, 50000, 50000⟩]
      [⟨"ETH", "long", 2, 3000⟩]).final "BTC" = none ∧
    (∃ q, findPos (syncPositions [⟨"BTC", "bid", 1, 50000, 50000⟩]
        [⟨"ETH", "long", 2, 3000⟩]).final "ETH" = some q ∧
      q.symbol = "ETH" ∧ q.side = "long" ∧ q.amount = 2 ∧
      q.entry_price = 3000) := by
  have h := c5_exchange_wins [⟨"BTC", "bid", 1, 50000, 50000⟩]
    [⟨"ETH", "long", 2, 3000⟩] (by decide) (by decide) (by decide)
  exact ⟨h.1 "BTC" (by decide), h.2 ⟨"ETH", "long", 2, 3000⟩ (by decide)⟩

/-- C6 counterexample: with the exchange unchanged (`ETH 2 @ 3000`), the
second reconciliation run reports one update, not zero — the overwrite
branch runs (and counts) unconditionally for every reported position. -/
theorem c6_second_run_reports_updates :
    (syncPositions (syncPositions [] [⟨"ETH", "long", 2, 3000⟩]).final
      [⟨"ETH", "long", 2, 3000⟩]).updated = 1 ∧
    ¬((syncPositions (syncPositions [] [⟨"ETH", "long", 2, 3000⟩]).final
      [⟨"ETH", "long", 2, 3000⟩]).updated = 0) := by
  have h1 : (syncPositions (syncPositions [] [⟨"ETH", "long", 2, 3000⟩]).final
      [⟨"ETH", "long", 2, 3000⟩]).updated = 1 := rfl
  refine ⟨h1, ?_⟩
  intro h
  rw [h1] at h
  exact absurd h (by decide)

/-- C6 (amended): re-running reconciliation with the exchange state
unchanged reports zero additional creates and zero additional deletes and
leaves the local ledger unchanged, but reports one update per exchange
position (the exchange-wins overwrite is applied and counted
unconditionally). -/
theorem c6_rerun_counts (localPs : List LocalPos) (exch : List PacPos)
    (hpos : ∀ p ∈ exch, 0 < p.amount)
    (hnd : (exch.map PacPos.symbol).Nodup) :
    (syncPositions (syncPositions localPs exch).final exch).created = 0 ∧
    (syncPositions (syncPositions localPs exch).final exch).deleted = 0 ∧
    (syncPositions (syncPositions localPs exch).final exch).updated
      = exch.length ∧
    (syncPositions (syncPositions localPs exch).final exch).final
      = (syncPositions localPs exch).final := by
  have hfilter_exch : exch.filter (fun p => decide (0 < p.amount)) = exch :=
    List.filter_eq_self.mpr (fun p hp => by simpa using hpos p hp)
  have hpacsyms : pacSymbolsOf exch = exch.map PacPos.symbol := by
    unfold pacSymbolsOf
    rw [hfilter_exch]
  have hsub : ∀ q ∈ (syncPositions localPs exch).final,
      q.symbol ∈ exch.map PacPos.symbol := by
    intro q hq
    have hfin : (syncPositions localPs exch).final
        = (exch.foldl applyPac ⟨keptOf localPs exch, 0, 0⟩).positions := rfl
    rw [hfin] at hq
    rcases foldl_applyPac_symbol_mem exch _ q hq with h | h
    · obtain ⟨q0, hq0, hq0s⟩ := List.mem_map.mp h
      have hcont := (List.mem_filter.mp hq0).2
      rw [← hq0s, ← hpacsyms]
      exact (containsStr_iff _ _).mp hcont
    · exact h
  have hkept2 : keptOf (syncPositions localPs exch).final exch
      = (syncPositions localPs exch).final := by
    unfold keptOf
    apply List.filter_eq_self.mpr
    intro q hq
    exact (containsStr_iff _ _).mpr (by rw [hpacsyms]; exact hsub q hq)
  have hdel2 : ((syncPositions localPs exch).final.filter
      (fun q => !(pacSymbolsOf exch).contains q.symbol)) = [] := by
    apply List.filter_eq_nil_iff.mpr
    intro q hq
    have hcont := (containsStr_iff (pacSymbolsOf exch) q.symbol).mpr
      (by rw [hpacsyms]; exact hsub q hq)
    rw [hcont]
    simp
  have hstep : ∀ p ∈ exch, ¬(p.amount = 0) ∧
      hasSymbol (syncPositions localPs exch).final p.symbol = true ∧
      updateFirst (syncPositions localPs exch).final p
        = (syncPositions localPs exch).final := by
    intro p hp
    obtain ⟨q, hfind, hqs, hside, hamt, hent⟩ :=
      sync_find_exch localPs exch hpos hnd p hp
    refine ⟨(hpos p hp).ne', ?_, ?_⟩
    · rw [hasSymbol_eq_isSome, hfind]
      rfl
    · apply updateFirst_id_of_first
      intro r hr
      rw [hfind] at hr
      injection hr with hqr
      rw [← hqr]
      exact overwriteFromPac_id _ _ hside hamt hent
  have hfold := foldl_applyPac_id exch (syncPositions localPs exch).final 0 0 hstep
  have hc : (syncPositions (syncPositions localPs exch).final exch).created
      = (exch.foldl applyPac
          ⟨keptOf (syncPositions localPs exch).final exch, 0, 0⟩).created := rfl
  have hu : (syncPositions (syncPositions localPs exch).final exch).updated
      = (exch.foldl applyPac
          ⟨keptOf (syncPositions localPs exch).final exch, 0, 0⟩).updated := rfl
  have hf2 : (syncPositions (syncPositions localPs exch).final exch).final
      = (exch.foldl applyPac
          ⟨keptOf (syncPositions localPs exch).final exch, 0, 0⟩).positions := rfl
  have hd : (syncPositions (syncPositions localPs exch).final exch).deleted
      = ((syncPositions localPs exch).final.filter
          (fun q => !(pacSymbolsOf exch).contains q.symbol)).length := rfl
  refine ⟨?_, ?_, ?_, ?_⟩
  · rw [hc, hkept2, hfold]
  · rw [hd, hdel2]
    rfl
  · rw [hu, hkept2, hfold]
    exact Nat.zero_add _
  · rw [hf2, hkept2, hfold]

/-- C6 witness: after syncing `ETH 2 @ 3000` into an empty ledger, a second
run with the same exchange state creates 0, deletes 0, reports 1 update, and
leaves the ledger unchanged. -/
theorem c6_witness :
    (syncPositions (syncPositions [] [⟨"ETH", "long", 2, 3000⟩]).final
      [⟨"ETH", "long", 2, 3000⟩]).created = 0 ∧
    (syncPositions (syncPositions [] [⟨"ETH", "long", 2, 3000⟩]).final
      [⟨"ETH", "long", 2, 3000⟩]).deleted = 0 ∧
    (syncPositions (syncPositions [] [⟨"ETH", "long", 2, 3000⟩]).final
      [⟨"ETH", "long", 2, 3000⟩]).updated = 1 ∧
    (syncPositions (syncPositions [] [⟨"ETH", "long", 2, 3000⟩]).final
      [⟨"ETH", "long", 2, 3000⟩]).final
      = (syncPositions [] [⟨"ETH", "long", 2, 3000⟩]).final :=
  c6_rerun_counts [] [⟨"ETH", "long", 2, 3000⟩] (by decide) (by decide)
